import Mathlib

/-!
Verification of the shortlink-url service core (src/server.go).

The development shallowly embeds the Go source:
* `generateShortCode` / `base62Chars` — the Base62 encoder (server.go lines 156-188);
* the database layer (`getNextID`, `saveURL`, `getURL`) as explicit state
  passing over an in-memory model of the `urls` table declared by
  `Database.InitSchema` (SERIAL id sequence, UNIQUE short_code constraint);
* the `POST /shorten` handler (`shortenHandler`).
Machine integers (Go `int64`) are modelled as `Int`; inside the encoding loop
all values are positive and the arithmetic (`%`, `/` on positive operands)
coincides with `Nat` arithmetic, so the loop is modelled on `Nat`.
-/

namespace Shortlink

/-- Base62 character set: 0-9, a-z, A-Z (62 characters total).
Mirrors the Go constant `base62Chars` (server.go line 156). -/
def base62Chars : String :=
  "0123456789abcdefghijklmnopqrstuvwxyzABCDEFGHIJKLMNOPQRSTUVWXYZ"

/-- `base62Chars[r]`: byte indexing into the ASCII alphabet string.
The Go code only ever indexes with `r = id % 62 < 62`, so the default value
of `getD` is never reached. -/
def base62CharAt (r : Nat) : Char :=
  base62Chars.toList.getD r '0'

/-- The `for id > 0` loop of `generateShortCode` (server.go lines 175-185):
`result = string(base62Chars[id % 62]) + result; id = id / 62`.
The loop only runs on positive values, so it is modelled on `Nat`. -/
def encodeLoop (id : Nat) (result : String) : String :=
  if h : 0 < id then
    encodeLoop (id / 62) (String.singleton (base62CharAt (id % 62)) ++ result)
  else
    result
termination_by id
decreasing_by exact Nat.div_lt_self h (by norm_num)

/-- `generateShortCode` (server.go lines 165-188): converts an integer ID to a
Base62 string.  Input `0` is special-cased to `"0"`; for negative input the
loop body never executes and the empty accumulator is returned. -/
def generateShortCode (id : Int) : String :=
  if id = 0 then
    String.singleton (base62CharAt 0)
  else if 0 < id then
    encodeLoop id.toNat ""
  else
    ""

/-- Index of a character in the Base62 alphabet. -/
def base62IndexOf (c : Char) : Nat :=
  base62Chars.toList.indexOf c

/-- Base62 decoder, modelled from the spec (the service itself never decodes;
spec section 4.1: "for each character left to right,
accumulated = accumulated × 62 + alphabet-index(character)"). -/
def decode (s : String) : Nat :=
  s.toList.foldl (fun acc c => acc * 62 + base62IndexOf c) 0

/-- Reference base-62 conversion following the spec's words (section 4.1):
repeatedly take `n mod 62` as the symbol index, prepend the symbol,
integer-divide `n` by 62 until `n` is 0; input 0 yields `"0"`.
Expressed through Mathlib's `Nat.digits`, whose little-endian digit list is
exactly the sequence of remainders the spec describes. -/
def specEncode (n : Nat) : String :=
  if n = 0 then "0"
  else String.mk ((Nat.digits 62 n).reverse.map base62CharAt)

/-- The characters the loop prepends while consuming `id`, most significant
digit first.  `encodeLoop id result` prepends exactly this list to `result`. -/
def encodeDigits (id : Nat) : List Char :=
  if h : 0 < id then
    encodeDigits (id / 62) ++ [base62CharAt (id % 62)]
  else
    []
termination_by id
decreasing_by exact Nat.div_lt_self h (by norm_num)

/-! ## The mapping store

The Go `Database` methods run SQL against the `urls` table created by
`InitSchema` (server.go lines 63-84):
`id SERIAL PRIMARY KEY, short_code VARCHAR(20) UNIQUE NOT NULL,
original_url TEXT NOT NULL, created_at TIMESTAMP DEFAULT CURRENT_TIMESTAMP`.
The store is modelled as explicit state: the last value issued by the
`urls_id_seq` sequence (SERIAL ids and `nextval` draw from the same
sequence, which starts at 1), the list of persisted rows, and a connectivity
flag standing for whether the round trip to PostgreSQL succeeds. -/

/-- Errors surfaced by the storage layer: a failed round trip to the
database, or violation of the UNIQUE constraint on `short_code`. -/
inductive DBErr where
  | storageUnavailable
  | duplicateCode
deriving DecidableEq

/-- One persisted row of the `urls` table (all four schema columns).
`created_at` is an abstract timestamp filled by the engine's
`CURRENT_TIMESTAMP` default. -/
structure UrlsRow where
  id : Int
  short_code : String
  original_url : String
  created_at : Nat
deriving DecidableEq

/-- The store state: `seqVal` is the last value issued by `urls_id_seq`
(0 before any allocation; `nextval` returns `seqVal + 1`). -/
structure DBState where
  seqVal : Int
  rows : List UrlsRow
  connected : Bool
deriving DecidableEq

/-- `Database.GetNextID` (server.go lines 136-148):
`SELECT nextval(urls_id_seq)`. -/
def getNextID (s : DBState) : Except DBErr Int × DBState :=
  if s.connected then
    (Except.ok (s.seqVal + 1), { s with seqVal := s.seqVal + 1 })
  else
    (Except.error DBErr.storageUnavailable, s)

/-- `Database.SaveURL` (server.go lines 88-102):
`INSERT INTO urls (short_code, original_url) VALUES (d1, d2) RETURNING id`.
The engine enforces the UNIQUE constraint on `short_code` (rejecting the
insert and leaving the table unchanged), fills `id` from the SERIAL
default `nextval(urls_id_seq)` and `created_at` from `CURRENT_TIMESTAMP`
(passed in as `now`). -/
def saveURL (s : DBState) (shortCode originalURL : String) (now : Nat) :
    Except DBErr Int × DBState :=
  if s.connected then
    if s.rows.any (fun r => r.short_code == shortCode) then
      (Except.error DBErr.duplicateCode, s)
    else
      (Except.ok (s.seqVal + 1),
        { s with
            seqVal := s.seqVal + 1,
            rows := s.rows ++ [⟨s.seqVal + 1, shortCode, originalURL, now⟩] })
  else
    (Except.error DBErr.storageUnavailable, s)

/-- The Go struct `URLMapping` (server.go lines 15-19): it has exactly the
three fields `ID`, `ShortCode`, `OriginalURL`. -/
structure URLMapping where
  ID : Int
  ShortCode : String
  OriginalURL : String
deriving DecidableEq

/-- `Database.GetURL` (server.go lines 106-132):
`SELECT id, short_code, original_url FROM urls WHERE short_code = d1`.
Go's `(nil, false, nil)` on `sql.ErrNoRows` is `Except.ok none`;
`(&m, true, nil)` is `Except.ok (some m)`; `(nil, false, err)` is
`Except.error`. -/
def getURL (s : DBState) (shortCode : String) :
    Except DBErr (Option URLMapping) :=
  if s.connected then
    match s.rows.find? (fun r => r.short_code == shortCode) with
    | none => Except.ok none
    | some r => Except.ok (some ⟨r.id, r.short_code, r.original_url⟩)
  else
    Except.error DBErr.storageUnavailable

/-- Outcome of the `POST /shorten` handler, by HTTP status. -/
inductive ShortenResult where
  | badRequest (message : String)
  | serverError (message : String)
  | created (short_code short_url : String)
deriving DecidableEq

/-- The `POST /shorten` handler (server.go lines 233-279): validate the URL
is non-empty, draw an id with `GetNextID`, encode it, persist with
`SaveURL`, and answer 201 with the code and the full short URL. -/
def shortenHandler (s : DBState) (reqURL : String) (now : Nat) :
    ShortenResult × DBState :=
  if reqURL = "" then
    (ShortenResult.badRequest "URL is required", s)
  else
    match getNextID s with
    | (Except.error _, s₁) =>
      (ShortenResult.serverError "Failed to generate short code", s₁)
    | (Except.ok id, s₁) =>
      let shortCode := generateShortCode id
      match saveURL s₁ shortCode reqURL now with
      | (Except.error _, s₂) =>
        (ShortenResult.serverError "Failed to save URL", s₂)
      | (Except.ok _, s₂) =>
        (ShortenResult.created shortCode ("http://localhost:8080/" ++ shortCode), s₂)

/-! ## Lemmas about the encoder -/

/-- Appending a singleton on the left conses its character. -/
lemma singleton_append_data (c : Char) (s : String) :
    (String.singleton c ++ s).data = c :: s.data := rfl

/-- `encodeLoop` prepends exactly the digit characters of `id`. -/
lemma encodeLoop_data (id : Nat) : forall result : String,
    (encodeLoop id result).data = encodeDigits id ++ result.data := by
  induction id using Nat.strong_induction_on with
  | _ id ih =>
    intro result
    rw [encodeLoop, encodeDigits]
    by_cases h : 0 < id
    · rw [dif_pos h, dif_pos h, ih (id / 62) (Nat.div_lt_self h (by norm_num)),
        singleton_append_data]
      simp
    · rw [dif_neg h, dif_neg h]
      simp

/-- The alphabet has no repeated symbols: indexing then searching is the
identity on `0..61`. -/
lemma base62IndexOf_base62CharAt :
    forall r : Fin 62, base62IndexOf (base62CharAt r.val) = r.val := by decide

/-- Folding the decoding step over the digits of `id` starting from `acc`
yields `acc * 62 ^ (number of digits) + id`. -/
lemma foldl_encodeDigits (id : Nat) : forall acc : Nat,
    List.foldl (fun a c => a * 62 + base62IndexOf c) acc (encodeDigits id) =
      acc * 62 ^ (encodeDigits id).length + id := by
  induction id using Nat.strong_induction_on with
  | _ id ih =>
    intro acc
    rw [encodeDigits]
    by_cases h : 0 < id
    · rw [dif_pos h]
      rw [List.foldl_append, ih (id / 62) (Nat.div_lt_self h (by norm_num))]
      have hidx : base62IndexOf (base62CharAt (id % 62)) = id % 62 :=
        base62IndexOf_base62CharAt ⟨id % 62, Nat.mod_lt id (by norm_num)⟩
      simp only [List.foldl_cons, List.foldl_nil, List.length_append,
        List.length_cons, List.length_nil, hidx]
      have hdm : 62 * (id / 62) + id % 62 = id := Nat.div_add_mod id 62
      rw [pow_succ]
      nlinarith [hdm]
    · rw [dif_neg h]
      have h0 : id = 0 := by omega
      simp [h0]

/-- Round trip: decoding the produced code recovers the encoded number. -/
lemma decode_generateShortCode (n : Nat) :
    decode (generateShortCode (n : Int)) = n := by
  by_cases h : n = 0
  · subst h
    decide
  · have hne : (n : Int) ≠ 0 := by exact_mod_cast h
    have hpos : (0 : Int) < (n : Int) := by exact_mod_cast Nat.pos_of_ne_zero h
    rw [generateShortCode, if_neg hne, if_pos hpos]
    rw [decode]
    have hT : (encodeLoop (Int.toNat (n : Int)) "").toList =
        encodeDigits (Int.toNat (n : Int)) ++ "".data := encodeLoop_data _ ""
    rw [hT]
    simp only [Int.toNat_natCast, String.data]
    rw [List.append_nil, foldl_encodeDigits]
    simp

/-- Two strings with the same character data are equal. -/
lemma string_eq_of_data (s t : String) (h : s.data = t.data) : s = t := by
  cases s; cases t; exact congrArg String.mk h

/-- The loop's digit characters are the base-62 digits of `n`, most
significant first. -/
lemma encodeDigits_eq_digits (n : Nat) :
    encodeDigits n = ((Nat.digits 62 n).reverse).map base62CharAt := by
  induction n using Nat.strong_induction_on with
  | _ n ih =>
    rw [encodeDigits]
    by_cases h : 0 < n
    · rw [dif_pos h, ih (n / 62) (Nat.div_lt_self h (by norm_num)),
        Nat.digits_def' (by norm_num : 1 < 62) h]
      simp
    · rw [dif_neg h]
      have h0 : n = 0 := by omega
      simp [h0]

/-- The Go encoder agrees with the spec's reference base-62 conversion. -/
lemma generateShortCode_eq_specEncode (n : Nat) :
    generateShortCode (n : Int) = specEncode n := by
  by_cases h : n = 0
  · subst h
    decide
  · have hne : (n : Int) ≠ 0 := by exact_mod_cast h
    have hpos : (0 : Int) < (n : Int) := by exact_mod_cast Nat.pos_of_ne_zero h
    rw [generateShortCode, if_neg hne, if_pos hpos, specEncode, if_neg h]
    apply string_eq_of_data
    rw [encodeLoop_data, Int.toNat_natCast, encodeDigits_eq_digits]
    simp

/-- Concrete evaluation: the encoder maps 1 to "1". -/
lemma generateShortCode_one : generateShortCode 1 = "1" := by
  simp only [generateShortCode]
  rw [encodeLoop, encodeLoop]
  norm_num
  decide

/-- Concrete evaluation: the encoder maps 2 to "2". -/
lemma generateShortCode_two : generateShortCode 2 = "2" := by
  simp only [generateShortCode]
  rw [encodeLoop, encodeLoop]
  norm_num
  decide

/-! ## Lemmas about the store -/

/-- `find?` skips a prefix containing no match. -/
lemma find?_append_of_none {α : Type} (p : α → Bool) (l₁ l₂ : List α)
    (h : l₁.find? p = none) : (l₁ ++ l₂).find? p = l₂.find? p := by
  induction l₁ with
  | nil => simp
  | cons x xs ih =>
    by_cases hx : p x
    · rw [List.find?_cons_of_pos _ hx] at h
      cases h
    · rw [List.find?_cons_of_neg _ hx] at h
      rw [List.cons_append, List.find?_cons_of_neg _ hx, ih h]

/-! ## Claims -/

/-- Claim C1: for every non-negative integer `n`, decoding the string
produced by the Base62 encoder (left-to-right fold
`accumulated = accumulated * 62 + alphabet-index`) yields `n` back:
`decode (encode n) = n`. -/
theorem generateShortCode_decode_roundtrip (n : Nat) :
    decode (generateShortCode (n : Int)) = n :=
  decode_generateShortCode n

/-- Claim C2: the Base62 encoder is injective over non-negative integers:
for `0 ≤ a < b`, `encode a ≠ encode b`. -/
theorem generateShortCode_injective (a b : Int) (ha : 0 ≤ a) (hab : a < b) :
    generateShortCode a ≠ generateShortCode b := by
  intro heq
  have hb : 0 ≤ b := le_of_lt (lt_of_le_of_lt ha hab)
  have h1 := decode_generateShortCode a.toNat
  have h2 := decode_generateShortCode b.toNat
  rw [Int.toNat_of_nonneg ha] at h1
  rw [Int.toNat_of_nonneg hb] at h2
  rw [heq, h2] at h1
  omega

/-- Concrete instance of claim C2 at `a = 3`, `b = 5`. -/
theorem generateShortCode_injective_witness :
    (0 : Int) ≤ 3 ∧ (3 : Int) < 5 ∧
      generateShortCode 3 ≠ generateShortCode 5 :=
  ⟨by norm_num, by norm_num,
    generateShortCode_injective 3 5 (by norm_num) (by norm_num)⟩

/-- Claim C3 as stated is false: the encoder maps 15432 to "40U", never to
"3dE" (the example carried by the code comment at server.go line 164 and by
the spec; "3dE" is in fact the encoding of 12378). -/
theorem generateShortCode_15432_ne_3dE : generateShortCode 15432 ≠ "3dE" := by
  have h : generateShortCode 15432 = "40U" := by
    simp only [generateShortCode]
    rw [encodeLoop, encodeLoop, encodeLoop, encodeLoop]
    norm_num
    decide
  rw [h]
  decide

/-- Claim C3 (amended): for every non-negative integer `n` the encoder
equals the reference base-62 conversion over the fixed alphabet
`0123456789abcdefghijklmnopqrstuvwxyzABCDEFGHIJKLMNOPQRSTUVWXYZ`; in
particular `encode 0 = "0"`, `encode 61 = "Z"`, `encode 62 = "10"` and
`encode 15432 = "40U"` (not `"3dE"`). -/
theorem generateShortCode_matches_reference :
    (forall n : Nat, generateShortCode (n : Int) = specEncode n) ∧
    generateShortCode 0 = "0" ∧ generateShortCode 61 = "Z" ∧
    generateShortCode 62 = "10" ∧ generateShortCode 15432 = "40U" := by
  refine ⟨generateShortCode_eq_specEncode, ?_, ?_, ?_, ?_⟩
  · simp only [generateShortCode, if_pos rfl]
    decide
  · simp only [generateShortCode]
    rw [encodeLoop, encodeLoop]
    norm_num
    decide
  · simp only [generateShortCode]
    rw [encodeLoop, encodeLoop, encodeLoop]
    norm_num
    decide
  · simp only [generateShortCode]
    rw [encodeLoop, encodeLoop, encodeLoop, encodeLoop]
    norm_num
    decide

/-- Claim C4 evaluated at the failing input: starting from a fresh connected
store, one successful creation request consumes TWO sequence values — one
via `GetNextID` (encoded into the short code) and one via the SERIAL
default inside `SaveURL` (becoming the persisted row's id).  The resulting
row is `{id := 2, short_code := "1"}`, and `"1" = encode 1 ≠ encode 2 = "2"`,
so the persisted id is not the identifier that was encoded. -/
theorem shortenHandler_double_allocation :
    shortenHandler ⟨0, [], true⟩ "https://example.com/a/b" 0 =
      (ShortenResult.created "1" "http://localhost:8080/1",
        ⟨2, [⟨2, "1", "https://example.com/a/b", 0⟩], true⟩) ∧
    generateShortCode 2 = "2" ∧ ("1" : String) ≠ "2" := by
  refine ⟨?_, generateShortCode_two, by decide⟩
  rw [shortenHandler, if_neg (by decide)]
  simp only [getNextID, saveURL, generateShortCode_one]
  norm_num [generateShortCode_one]
  decide

/-- Claim C5: after a successful `SaveURL code url`, `GetURL code` on the
resulting store returns a found mapping whose original URL is exactly
`url`. -/
theorem getURL_after_saveURL (s : DBState) (code url : String) (now : Nat)
    (id : Int) (s' : DBState)
    (h : saveURL s code url now = (Except.ok id, s')) :
    exists m : URLMapping,
      getURL s' code = Except.ok (some m) ∧ m.OriginalURL = url := by
  rw [saveURL] at h
  by_cases hc : s.connected = true
  · rw [if_pos hc] at h
    by_cases hd : s.rows.any (fun r => r.short_code == code) = true
    · rw [if_pos hd] at h
      cases h
    · rw [if_neg hd] at h
      have hs' : s' = { s with
          seqVal := s.seqVal + 1,
          rows := s.rows ++ [⟨s.seqVal + 1, code, url, now⟩] } :=
        (congrArg Prod.snd h).symm
      refine ⟨⟨s.seqVal + 1, code, url⟩, ?_, rfl⟩
      rw [hs', getURL, if_pos hc]
      have hnone : s.rows.find? (fun r => r.short_code == code) = none := by
        rw [List.find?_eq_none]
        intro r hr hpr
        exact hd (List.any_eq_true.mpr ⟨r, hr, hpr⟩)
      rw [find?_append_of_none _ _ _ hnone]
      simp [List.find?]
  · rw [if_neg hc] at h
    cases h

/-- Concrete instance of claim C5: save then resolve on a fresh store. -/
theorem getURL_after_saveURL_witness :
    saveURL ⟨0, [], true⟩ "abc" "https://example.com" 7 =
      (Except.ok 1, ⟨1, [⟨1, "abc", "https://example.com", 7⟩], true⟩) ∧
    exists m : URLMapping,
      getURL ⟨1, [⟨1, "abc", "https://example.com", 7⟩], true⟩ "abc" =
          Except.ok (some m) ∧
        m.OriginalURL = "https://example.com" :=
  ⟨rfl, getURL_after_saveURL ⟨0, [], true⟩ "abc" "https://example.com" 7 1
    ⟨1, [⟨1, "abc", "https://example.com", 7⟩], true⟩ rfl⟩

/-- Claim C6: on a reachable store, `GetURL` for a code that was never
created returns the non-error NotFound outcome `(nil, false, nil)`,
modelled as `Except.ok none`. -/
theorem getURL_never_created (s : DBState) (code : String)
    (hc : s.connected = true) (hn : forall r, r ∈ s.rows → r.short_code ≠ code) :
    getURL s code = Except.ok none := by
  rw [getURL, if_pos hc]
  have hnone : s.rows.find? (fun r => r.short_code == code) = none := by
    rw [List.find?_eq_none]
    intro r hr
    simpa using hn r hr
  rw [hnone]

/-- Concrete instance of claim C6 on the empty store. -/
theorem getURL_never_created_witness :
    (DBState.mk 0 [] true).connected = true ∧
    getURL ⟨0, [], true⟩ "zzz" = Except.ok none :=
  ⟨rfl, getURL_never_created ⟨0, [], true⟩ "zzz" rfl
    (by intro r hr; cases hr)⟩

/-- Claim C7: inserting a mapping whose code is already present in a
reachable store fails with the DuplicateCode error (the UNIQUE constraint
on `short_code`) and returns the store unchanged — it never overwrites. -/
theorem saveURL_duplicate (s : DBState) (code url : String) (now : Nat)
    (r : UrlsRow) (hc : s.connected = true) (hr : r ∈ s.rows)
    (hcode : r.short_code = code) :
    saveURL s code url now = (Except.error DBErr.duplicateCode, s) := by
  have hany : s.rows.any (fun x => x.short_code == code) = true :=
    List.any_eq_true.mpr ⟨r, hr, by simp [hcode]⟩
  rw [saveURL, if_pos hc, if_pos hany]

/-- Concrete instance of claim C7: re-inserting code "a" fails and leaves
the store as it was. -/
theorem saveURL_duplicate_witness :
    (UrlsRow.mk 1 "a" "https://x.example" 0) ∈
        [UrlsRow.mk 1 "a" "https://x.example" 0] ∧
    saveURL ⟨1, [⟨1, "a", "https://x.example", 0⟩], true⟩ "a"
        "https://y.example" 9 =
      (Except.error DBErr.duplicateCode,
        ⟨1, [⟨1, "a", "https://x.example", 0⟩], true⟩) :=
  ⟨List.mem_singleton.mpr rfl,
    saveURL_duplicate ⟨1, [⟨1, "a", "https://x.example", 0⟩], true⟩ "a"
      "https://y.example" 9 ⟨1, "a", "https://x.example", 0⟩ rfl
      (List.mem_singleton.mpr rfl) rfl⟩

/-- Claim C8: a creation request with an empty URL is rejected with the
validation error, before any identifier is drawn — the store (sequence
counter and rows alike) is returned untouched. -/
theorem shortenHandler_empty_url (s : DBState) (now : Nat) :
    shortenHandler s "" now =
      (ShortenResult.badRequest "URL is required", s) := by
  rw [shortenHandler, if_pos rfl]

/-- Claim C9 as stated is false: two stores whose single rows differ only in
`created_at` are indistinguishable through `GetURL` — the returned
`URLMapping` does not carry the creation timestamp, so the full four-field
record is not returned. -/
theorem getURL_drops_created_at :
    (UrlsRow.mk 1 "1" "https://a.example/x" 100) ≠
      (UrlsRow.mk 1 "1" "https://a.example/x" 200) ∧
    getURL ⟨1, [⟨1, "1", "https://a.example/x", 100⟩], true⟩ "1" =
      getURL ⟨1, [⟨1, "1", "https://a.example/x", 200⟩], true⟩ "1" :=
  ⟨by decide, rfl⟩

/-- Claim C9 (amended): every persisted row carries all four schema fields
{id, short_code, original_url, created_at}, but `GetURL` returns only the
three-field `URLMapping` projection {ID, ShortCode, OriginalURL} of the
stored row; the creation timestamp is never selected or returned. -/
theorem getURL_returns_projection (s : DBState) (code : String) (r : UrlsRow)
    (hc : s.connected = true)
    (hfind : s.rows.find? (fun row => row.short_code == code) = some r) :
    getURL s code = Except.ok (some ⟨r.id, r.short_code, r.original_url⟩) := by
  rw [getURL, if_pos hc, hfind]

/-- Concrete instance of the amended claim C9. -/
theorem getURL_returns_projection_witness :
    ([UrlsRow.mk 1 "1" "https://a.example/x" 100].find?
        (fun row => row.short_code == "1") =
      some (UrlsRow.mk 1 "1" "https://a.example/x" 100)) ∧
    getURL ⟨1, [⟨1, "1", "https://a.example/x", 100⟩], true⟩ "1" =
      Except.ok (some ⟨1, "1", "https://a.example/x"⟩) :=
  ⟨rfl, getURL_returns_projection
    ⟨1, [⟨1, "1", "https://a.example/x", 100⟩], true⟩ "1"
    ⟨1, "1", "https://a.example/x", 100⟩ rfl rfl⟩

/-- Claim C10: for every negative input, `generateShortCode` skips both the
zero special case and the loop and returns the empty string. -/
theorem generateShortCode_negative (id : Int) (h : id < 0) :
    generateShortCode id = "" := by
  rw [generateShortCode, if_neg (by omega : ¬id = 0),
    if_neg (by omega : ¬(0 : Int) < id)]

/-- Concrete instance of claim C10 at `id = -5`. -/
theorem generateShortCode_negative_witness :
    (-5 : Int) < 0 ∧ generateShortCode (-5) = "" :=
  ⟨by norm_num, generateShortCode_negative (-5) (by norm_num)⟩

end Shortlink
